import Mathlib

/-!
Shallow embedding of the embed-page extractor of the
AniBiee-AnimeWorldIndia-scraper repository
(source file src/src/extractors/embed.extractor.js), together with
verification of its episode-identity resolution and fallback-chain
retrieval algorithm.

Modelling conventions:
* HTTP transport is an oracle parameter of type String to Except JsError Html
  (URL to outcome); a thrown JS error is an Except.error value.
* The cheerio page parser is the external Page Parser collaborator: an HTML
  document is modelled as the list of div blocks the selector for ids
  beginning in "options-" returns, in document order, each carrying its id
  attribute, its first iframe's src and data-src attributes (empty string for
  an absent attribute, as the extractAttribute helper yields a falsy value)
  and the text of the tab label anchor referencing that id.
* JS numbers that are natural in the source (server indices, season, episode)
  are Nat; JS string interpolation of such a number is natToDecimal.
* Every orchestration function also returns the list of URLs it fetched, in
  order, so that claims about which fallback fetches are or are not attempted
  are statements about the embedding.
-/

deriving instance DecidableEq for Except

namespace AnimeWorld

/-- The shape of a JS error value as the extractor inspects it:
response.status, status, message and code fields, each possibly absent. -/
structure JsError where
  responseStatus : Option Nat := none
  status : Option Nat := none
  message : Option String := none
  code : Option String := none
deriving DecidableEq, Repr

/-- A record of the external anime API's JSON array, with the three fields the
extractor reads; each may be absent in the dynamic JS object. -/
structure AnimeRecord where
  id : Option String := none
  data_id : Option String := none
  title : Option String := none
deriving DecidableEq, Repr

/-- One div block matched by the selector for ids beginning in "options-":
its id attribute, the src and data-src attributes of its first iframe
(empty string when absent) and the text content of the server-name label in
the tab anchor referencing this block. -/
structure OptionDiv where
  id : String
  src : String := ""
  dataSrc : String := ""
  label : String := ""
deriving DecidableEq, Repr

/-- A parsed HTML document, as the external page parser presents it to
the extract method: the matched option divs in document order. -/
abbrev Html := List OptionDiv

/-- One extracted server entry: numeric index, display name, embed URL. -/
structure ServerEntry where
  server : Nat
  name : String
  url : String
deriving DecidableEq, Repr

/-- The externalApiMapping object attached by the various flows; the JS object
is dynamic, so every field is optional here. -/
structure ApiMapping where
  animeId : Option String := none
  dataId : Option String := none
  title : Option String := none
  season : Option Nat := none
  episode : Option Nat := none
  constructedId : Option String := none
deriving DecidableEq, Repr

/-- The result object returned by the extractor methods. -/
structure ExtractionResult where
  id : String
  servers : List ServerEntry
  externalApiMapping : Option ApiMapping := none
deriving DecidableEq, Repr

/-! ### Character and string helpers -/

/-- Maximal run of decimal digits at the head of a character list. -/
def leadingDigits : List Char → List Char
  | [] => []
  | c :: cs => if c.isDigit then c :: leadingDigits cs else []

/-- Base-10 value of a digit string, as parseInt with radix 10 computes it
on an all-digit input (leading zeros normalized away). -/
def natOfDigits (ds : List Char) : Nat :=
  ds.foldl (fun n c => n * 10 + (c.toNat - '0'.toNat)) 0

/-- The character of a decimal digit value. -/
def digitChar (n : Nat) : Char :=
  Char.ofNat ('0'.toNat + n)

/-- Fuelled accumulator loop of decimal printing; the fuel only serves to
make the recursion structural, any fuel above the number suffices. -/
def natToDecimalGo : Nat → Nat → List Char → List Char
  | 0, _, acc => acc
  | fuel + 1, n, acc =>
    if n < 10 then digitChar n :: acc
    else natToDecimalGo fuel (n / 10) (digitChar (n % 10) :: acc)

/-- Canonical decimal numeral of a natural number: the model of JS
number-to-string conversion inside template literals. -/
def natToDecimal (n : Nat) : String :=
  String.mk (natToDecimalGo (n + 1) n [])

/-- Whitespace test used to model the JS regex class backslash-s and the
String.prototype.trim whitespace set, at the ASCII granularity the
extractor's inputs use. -/
def isWs (c : Char) : Bool :=
  c == ' ' || c == '\t' || c == '\n' || c == '\r'

/-- Model of String.prototype.trim: drop whitespace from both ends. -/
def trimStr (s : String) : String :=
  String.mk (((s.data.dropWhile isWs).reverse.dropWhile isWs).reverse)

/-! ### The extract method (lines 20-58):
scan option divs, read the numeric index out of the id, read the iframe
src falling back to data-src, skip entries with no usable URL, default
blank names, sort ascending by server number (JS sort is stable). -/

/-- One step of the unanchored JS regex search for the literal "options-"
followed by one or more digits: try to match at the head of the list. -/
def matchOptionsAt (cs : List Char) : Option (List Char) :=
  if cs.take 8 = "options-".data then
    let ds := leadingDigits (cs.drop 8)
    if ds = [] then none else some ds
  else none

/-- The unanchored JS regex search for "options-" followed by digits over a
whole id attribute: first position at which the pattern matches wins, and
the captured group is the maximal digit run there. -/
def findOptionsNum : List Char → Option (List Char)
  | [] => none
  | c :: cs =>
    match matchOptionsAt (c :: cs) with
    | some ds => some ds
    | none => findOptionsNum cs

/-- Embed URL of an option div: iframe src if non-empty, else data-src if
non-empty, else the empty string (the JS short-circuit or-chain over the
falsy empty string). -/
def effectiveSrc (d : OptionDiv) : String :=
  if d.src ≠ "" then d.src else if d.dataSrc ≠ "" then d.dataSrc else ""

/-- The body of the per-div callback in extract: parse the numeric index out
of the id, compute the embed URL, and emit a server entry only when the URL
is non-empty, defaulting a blank trimmed label to "Server " and the index. -/
def entryOfDiv (d : OptionDiv) : Option ServerEntry :=
  match findOptionsNum d.id.data with
  | none => none
  | some ds =>
    if effectiveSrc d = "" then none
    else some
      { server := natOfDigits ds
        name := if trimStr d.label = "" then "Server " ++ natToDecimal (natOfDigits ds)
          else trimStr d.label
        url := effectiveSrc d }

/-- The comparison servers.sort receives from its numeric comparator. -/
def serverLe (a b : ServerEntry) : Prop :=
  a.server ≤ b.server

instance : DecidableRel serverLe := fun a b => Nat.decLe a.server b.server

instance : IsTotal ServerEntry serverLe := ⟨fun a b => Nat.le_total a.server b.server⟩

instance : IsTrans ServerEntry serverLe := ⟨fun _ _ _ => Nat.le_trans⟩

/-- The extract method: collect entries from the option divs in document
order, then stable-sort ascending by server number (JS Array.prototype.sort
is a stable sort, modelled by the stable insertion sort); the id field is
the empty string, assigned later by the caller. -/
def extract (html : Html) : ExtractionResult :=
  { id := ""
    servers := (html.filterMap entryOfDiv).insertionSort serverLe
    externalApiMapping := none }

/-! ### Episode identifier codec (lines 60-82) -/

/-- Character class of the JS regex dot: any character except a line
terminator. -/
def jsDot (c : Char) : Bool :=
  !(c == '\n' || c == '\r' || c == Char.ofNat 0x2028 || c == Char.ofNat 0x2029)

/-- Matching the tail of the anchored episode-id regex at a given position:
a literal hyphen, a maximal non-empty digit run, a literal x, and a maximal
non-empty digit run that reaches the end of the string.  Greedy digit runs
bounded by the non-digit x and the anchor admit no backtracking, so this is
exact. -/
def matchSuffixAt (cs : List Char) : Option (List Char × List Char) :=
  match cs with
  | [] => none
  | c :: rest =>
    if c = '-' then
      let ds := leadingDigits rest
      if ds = [] then none
      else
        match rest.drop ds.length with
        | [] => none
        | x :: rest2 =>
          if x = 'x' then
            let es := leadingDigits rest2
            if es = [] then none
            else if rest2.drop es.length = [] then some (ds, es)
            else none
          else none
    else none

/-- The lazy prefix scan of the episode-id regex: grow the captured prefix one
dot-matching character at a time, and at each length try the season-x-episode
tail immediately after it; the first matching split wins, exactly as the
non-greedy group backtracks. -/
def findSplit (acc : List Char) : List Char → Option (List Char × List Char × List Char)
  | [] => none
  | c :: cs =>
    if jsDot c then
      match matchSuffixAt cs with
      | some (ds, es) => some (acc ++ [c], ds, es)
      | none => findSplit (acc ++ [c]) cs
    else none

/-- Parsed fields of a composite episode identifier. -/
structure EpisodeIdParts where
  animeTitle : String
  season : Nat
  episode : Nat
deriving DecidableEq, Repr

/-- parseEpisodeId (lines 70-82): match the anchored regex of a lazy dot
group, hyphen, digit group, x, digit group; on success return the parsed
fields with parseInt base 10 applied to the numerals, otherwise null. -/
def parseEpisodeId (episodeId : String) : Option EpisodeIdParts :=
  match findSplit [] episodeId.data with
  | some (t, ds, es) =>
    some { animeTitle := String.mk t, season := natOfDigits ds, episode := natOfDigits es }
  | none => none

/-- getSeriesIdFromEpisodeId (lines 60-68): strip a trailing season-x-episode
pattern when present, otherwise return the input unchanged. -/
def getSeriesIdFromEpisodeId (episodeId : String) : String :=
  match findSplit [] episodeId.data with
  | some (t, _, _) => String.mk t
  | none => episodeId

/-- The composite episode identifier template literal of line 387: slug,
hyphen, season, x, episode, with JS number stringification. -/
def buildComposite (slug : String) (season episode : Nat) : String :=
  slug ++ "-" ++ natToDecimal season ++ "x" ++ natToDecimal episode

/-! ### Title-to-slug normalizations -/

/-- Collapse each maximal whitespace run into a single hyphen: the global
replacement of one-or-more whitespace by a hyphen.  The boolean state records
whether the previous character was whitespace (inside a run). -/
def collapseWsAux : Bool → List Char → List Char
  | _, [] => []
  | inRun, c :: cs =>
    if isWs c then
      if inRun then collapseWsAux true cs else '-' :: collapseWsAux true cs
    else c :: collapseWsAux false cs

/-- Lowercasing of a string, character by character. -/
def lowerStr (s : String) : String :=
  String.mk (s.data.map Char.toLower)

/-- The JS regex word class: ASCII letters, digits, and the underscore. -/
def isWordChar (c : Char) : Bool :=
  c.isAlphanum || c == '_'

/-- The slug normalization of the numeric-id flows at line 384: lowercase,
collapse whitespace runs to single hyphens, then delete every character that
is neither a word character nor a hyphen. -/
def normalizeTitleFull (t : String) : String :=
  String.mk ((collapseWsAux false (lowerStr t).data).filter (fun c => isWordChar c || c == '-'))

/-- The slug normalization of getEmbedByDataId at line 279: lowercase and
collapse whitespace runs to single hyphens, deleting nothing else. -/
def normalizeTitleBasic (t : String) : String :=
  String.mk (collapseWsAux false (lowerStr t).data)

/-! ### Transport-facing orchestration -/

/-- Modelled from the spec: the site base URL constant of the
WatchAnimeWorldBase class required from ../base/base, a file absent from the
sources; the spec fixes the outbound URL shapes as baseUrl followed by
/episode/, /series/ and /movies/ segments, and the source name is
watchanimeworld.in. -/
def baseUrl : String := "https://watchanimeworld.in"

/-- URL of the episode page for an identifier. -/
def episodePageUrl (id : String) : String :=
  baseUrl ++ "/episode/" ++ id ++ "/"

/-- URL of the series details page for a slug. -/
def seriesPageUrl (slug : String) : String :=
  baseUrl ++ "/series/" ++ slug ++ "/"

/-- URL of the movies details page for a slug. -/
def moviesPageUrl (slug : String) : String :=
  baseUrl ++ "/movies/" ++ slug ++ "/"

/-- A transport oracle: what the HTTP client yields for each URL, already run
through the external HTML parser on success. -/
abbrev FetchOracle := String → Except JsError Html

/-- Occurrence of a needle as a contiguous run inside a haystack, the model
of String.prototype.includes. -/
def listHasInfix (needle : List Char) : List Char → Bool
  | [] => needle == []
  | c :: cs => needle == (c :: cs).take needle.length || listHasInfix needle cs

/-- The not-found classification of extractFromUrl (lines 191-194):
response.status 404, or status 404, or a message containing the substring
404, or the code ENOTFOUND. -/
def is404 (e : JsError) : Bool :=
  e.responseStatus == some 404 || e.status == some 404 ||
    (match e.message with
     | some m => listHasInfix "404".data m.data
     | none => false) ||
    e.code == some "ENOTFOUND"

/-- extractFromUrl (lines 171-235): fetch the episode page; on success parse
it and stamp the requested id.  On an error classified as not-found, derive
the series slug and try the series page then the movies page, returning the
first success (stamped with the requested id) and otherwise rethrowing the
last detail error.  On an error not classified as not-found, rethrow it at
once.  The second component lists the URLs fetched, in order. -/
def extractFromUrl (fetch : FetchOracle) (id : String) :
    Except JsError ExtractionResult × List String :=
  match fetch (episodePageUrl id) with
  | .ok html => (.ok { extract html with id := id }, [episodePageUrl id])
  | .error e =>
    if is404 e then
      match fetch (seriesPageUrl (getSeriesIdFromEpisodeId id)) with
      | .ok h => (.ok { extract h with id := id },
          [episodePageUrl id, seriesPageUrl (getSeriesIdFromEpisodeId id)])
      | .error _ =>
        match fetch (moviesPageUrl (getSeriesIdFromEpisodeId id)) with
        | .ok h => (.ok { extract h with id := id },
            [episodePageUrl id, seriesPageUrl (getSeriesIdFromEpisodeId id),
              moviesPageUrl (getSeriesIdFromEpisodeId id)])
        | .error e2 => (.error e2,
            [episodePageUrl id, seriesPageUrl (getSeriesIdFromEpisodeId id),
              moviesPageUrl (getSeriesIdFromEpisodeId id)])
    else (.error e, [episodePageUrl id])

/-! ### External metadata resolution (lines 84-169) -/

/-- What the external API request yields: a thrown transport error, a
non-array body (modelled as none), or a JSON array of anime records. -/
abbrev ApiResult := Except JsError (Option (List AnimeRecord))

/-- An oracle for the title-search endpoint: response per query string. -/
abbrev SearchOracle := String → ApiResult

/-- searchAnimeInExternalApi (lines 84-105): return the first element of a
non-empty response array, null on an absent or empty response, and null on
any thrown transport error. -/
def searchAnimeInExternalApi (resp : ApiResult) : Option AnimeRecord :=
  match resp with
  | .ok (some l) => if l.length > 0 then l.head? else none
  | .ok none => none
  | .error _ => none

/-- The mapping record built by getAnimeIdFromExternalApi. -/
structure MappedData where
  externalApiId : String
  dataId : Option String
  episodeId : String
  season : Nat
  episode : Nat
  originalTitle : String
deriving DecidableEq, Repr

/-- JS truthiness of a possibly-absent string: present and non-empty. -/
def strTruthy : Option String → Bool
  | some s => s ≠ ""
  | none => false

/-- getAnimeIdFromExternalApi (lines 107-135): parse the episode id, search
the external API for the parsed title, and when the match has a truthy id
assemble the mapped record, defaulting the title to the parsed one and an
empty data_id to null; any miss yields null. -/
def getAnimeIdFromExternalApi (api : SearchOracle) (episodeId : String) : Option MappedData :=
  match parseEpisodeId episodeId with
  | none => none
  | some parsed =>
    match searchAnimeInExternalApi (api parsed.animeTitle) with
    | none => none
    | some animeData =>
      match animeData.id with
      | some aid =>
        if aid = "" then none
        else some
          { externalApiId := aid
            dataId := match animeData.data_id with
              | some s => if s = "" then none else some s
              | none => none
            episodeId := episodeId
            season := parsed.season
            episode := parsed.episode
            originalTitle := match animeData.title with
              | some t => if t = "" then parsed.animeTitle else t
              | none => parsed.animeTitle }
      | none => none

/-- getEmbedWithMapping (lines 137-169): attempt the external mapping; on a
miss fall through to the direct retrieval unchanged; on a hit run the same
direct retrieval on the original episode id and, when it succeeds, attach the
external match fields.  Second component: URLs fetched. -/
def getEmbedWithMapping (api : SearchOracle) (fetch : FetchOracle) (episodeId : String) :
    Except JsError ExtractionResult × List String :=
  match getAnimeIdFromExternalApi api episodeId with
  | none => extractFromUrl fetch episodeId
  | some mappedData =>
    let r := extractFromUrl fetch episodeId
    match r.1 with
    | .error e => (.error e, r.2)
    | .ok embedData =>
      (.ok { embedData with
          id := episodeId
          externalApiMapping := some
            { animeId := some mappedData.externalApiId
              dataId := mappedData.dataId
              title := some mappedData.originalTitle
              season := some mappedData.season
              episode := some mappedData.episode } }, r.2)

/-! ### Numeric-id + season + episode flow (lines 321-452) -/

/-- The fixed ordered popular-title slug list of constructCommonSeriesIds. -/
def popularPatterns : List String :=
  ["one-punch-man", "one-piece", "naruto", "bleach", "demon-slayer",
   "jujutsu-kaisen", "attack-on-titan", "my-hero-academia",
   "dragon-ball-super", "spy-x-family", "fire-force", "chainsaw-man",
   "hunter-x-hunter", "solo-leveling"]

/-- JS stringification of a possibly-absent string field, as the comparison
String of item.data_id performs it. -/
def strOfOptStr : Option String → String
  | some s => s
  | none => "undefined"

/-- The title lookup of getEmbedByDataIdAndEpisode (lines 356-380): on a
transport error or timeout, or a non-array body, no title; on an array, scan
for the record whose stringified data_id equals the queried id and take its
title when truthy. -/
def resolveAnimeTitle (listing : ApiResult) (dataId : String) : Option String :=
  match listing with
  | .error _ => none
  | .ok none => none
  | .ok (some l) =>
    match l.find? (fun item => strOfOptStr item.data_id == dataId) with
    | some anime =>
      match anime.title with
      | some t => if t = "" then none else some t
      | none => none
    | none => none

/-- The error thrown after the fallback loops of getEmbedByDataIdAndEpisode
are exhausted. -/
def noPageError (dataId : String) : JsError :=
  { message := some ("Could not find any page for data_id: " ++ dataId) }

/-- Sequential first-success-wins attempt over a URL list: fetch each in
order, build the result from the first successful page, and fall through to
the given failure after the last; the trace lists every URL fetched. -/
def tryUrls (fetch : FetchOracle) (mk : Html → ExtractionResult) (fail : JsError) :
    List String → Except JsError ExtractionResult × List String
  | [] => (.error fail, [])
  | u :: us =>
    match fetch u with
    | .ok h => (.ok (mk h), [u])
    | .error _ =>
      let r := tryUrls fetch mk fail us
      (r.1, u :: r.2)

/-- getEmbedByDataIdAndEpisode (lines 321-452): resolve a title from the full
listing (swallowing any listing failure), pick the candidate slugs (the
normalized resolved title alone, or the popular patterns), build the
composite episode id from the FIRST candidate only, fetch its episode page,
and on any error there walk every candidate's series page then movies page,
first success wins, throwing the no-page error after exhaustion.  Second
component: URLs fetched, in order. -/
def getEmbedByDataIdAndEpisode (fetch : FetchOracle) (listing : ApiResult)
    (dataId : String) (season episode : Nat) :
    Except JsError ExtractionResult × List String :=
  let animeTitle := resolveAnimeTitle listing dataId
  let seriesPatterns := match animeTitle with
    | some t => [normalizeTitleFull t]
    | none => popularPatterns
  let constructedEpisodeId := buildComposite (seriesPatterns.headD "") season episode
  let rid := dataId ++ "/" ++ natToDecimal season ++ "/" ++ natToDecimal episode
  let mapping : ApiMapping :=
    { dataId := some dataId
      season := some season
      episode := some episode
      title := some (match animeTitle with | some t => t | none => "Unknown")
      constructedId := some constructedEpisodeId }
  let mk : Html → ExtractionResult := fun h =>
    { extract h with id := rid, externalApiMapping := some mapping }
  let epUrl := episodePageUrl constructedEpisodeId
  match fetch epUrl with
  | .ok h => (.ok (mk h), [epUrl])
  | .error _ =>
    let detailUrls := seriesPatterns.flatMap (fun s => [seriesPageUrl s, moviesPageUrl s])
    let r := tryUrls fetch mk (noPageError dataId) detailUrls
    (r.1, epUrl :: r.2)

/-! ## Supporting lemmas -/

theorem charOfNat_toNat (n : Nat) (h : Nat.isValidChar n) : (Char.ofNat n).toNat = n := by
  simp only [Char.ofNat, dif_pos h, Char.ofNatAux, Char.toNat, UInt32.toNat]
  exact BitVec.toNat_ofNatLt _ _

theorem uint32_le_iff (a b : UInt32) : a ≤ b ↔ a.toNat ≤ b.toNat := by
  simp [UInt32.le_def, BitVec.le_def, UInt32.toNat]

theorem isUpper_iff (c : Char) : c.isUpper = true ↔ 65 ≤ c.toNat ∧ c.toNat ≤ 90 := by
  simp only [Char.isUpper, Bool.and_eq_true, decide_eq_true_eq, ge_iff_le, uint32_le_iff]
  exact Iff.rfl

theorem toLower_isUpper_false (c : Char) : c.toLower.isUpper = false := by
  show (let n := c.toNat; if n ≥ 65 ∧ n ≤ 90 then Char.ofNat (n + 32) else c).isUpper = false
  simp only
  split
  · rename_i h
    have hv : Nat.isValidChar (c.toNat + 32) := Or.inl (by omega)
    have ht := charOfNat_toNat (c.toNat + 32) hv
    cases hb : (Char.ofNat (c.toNat + 32)).isUpper with
    | false => rfl
    | true => have := (isUpper_iff _).1 hb; omega
  · rename_i h
    cases hb : c.isUpper with
    | false => rfl
    | true =>
      have := (isUpper_iff _).1 hb
      exact absurd ⟨this.1, this.2⟩ h

theorem mem_leadingDigits (l : List Char) : ∀ c ∈ leadingDigits l, c.isDigit = true := by
  induction l with
  | nil => intro c hc; exact absurd hc (by simp [leadingDigits])
  | cons a as ih =>
    intro c hc
    by_cases h : a.isDigit
    · rw [leadingDigits, if_pos h] at hc
      rcases List.mem_cons.1 hc with h1 | h2
      · rw [h1]; exact h
      · exact ih c h2
    · rw [leadingDigits, if_neg h] at hc
      exact absurd hc (by simp)

theorem leadingDigits_self_append (l : List Char) :
    l = leadingDigits l ++ l.drop (leadingDigits l).length := by
  induction l with
  | nil => rfl
  | cons a as ih =>
    by_cases h : a.isDigit
    · rw [leadingDigits, if_pos h]
      simpa [List.drop_succ_cons] using congrArg (a :: ·) ih
    · rw [leadingDigits, if_neg h]
      simp

theorem leadingDigits_all (ds : List Char) (h : ∀ c ∈ ds, c.isDigit = true) :
    leadingDigits ds = ds := by
  induction ds with
  | nil => rfl
  | cons a as ih =>
    rw [leadingDigits, if_pos (h a (by simp))]
    rw [ih (fun c hc => h c (by simp [hc]))]

theorem leadingDigits_stop (ds : List Char) (c : Char) (r : List Char)
    (h : ∀ x ∈ ds, x.isDigit = true) (hc : c.isDigit = false) :
    leadingDigits (ds ++ c :: r) = ds := by
  induction ds with
  | nil => simp [leadingDigits, hc]
  | cons a as ih =>
    rw [List.cons_append, leadingDigits, if_pos (h a (by simp))]
    rw [ih (fun x hx => h x (by simp [hx]))]

theorem digitRun_head_unique (c : Char) (hc : c.isDigit = false)
    (d1 d2 r1 r2 : List Char)
    (h1 : ∀ x ∈ d1, x.isDigit = true) (h2 : ∀ x ∈ d2, x.isDigit = true)
    (he : d1 ++ c :: r1 = d2 ++ c :: r2) : d1 = d2 ∧ r1 = r2 := by
  have e1 : leadingDigits (d1 ++ c :: r1) = d1 := leadingDigits_stop d1 c r1 h1 hc
  have e2 : leadingDigits (d2 ++ c :: r2) = d2 := leadingDigits_stop d2 c r2 h2 hc
  have hd : d1 = d2 := by rw [← e1, ← e2, he]
  subst hd
  have := List.append_cancel_left he
  exact ⟨rfl, by injection this⟩

theorem digitRun_tail_unique (c : Char) (hc : c.isDigit = false)
    (d1 d2 r1 r2 : List Char)
    (h1 : ∀ x ∈ d1, x.isDigit = true) (h2 : ∀ x ∈ d2, x.isDigit = true)
    (he : r1 ++ c :: d1 = r2 ++ c :: d2) : d1 = d2 ∧ r1 = r2 := by
  have hrev : d1.reverse ++ c :: r1.reverse = d2.reverse ++ c :: r2.reverse := by
    have h0 := congrArg List.reverse he
    simpa [List.reverse_append] using h0
  have h3 := digitRun_head_unique c hc d1.reverse d2.reverse r1.reverse r2.reverse
    (fun x hx => h1 x (List.mem_reverse.1 hx)) (fun x hx => h2 x (List.mem_reverse.1 hx)) hrev
  exact ⟨List.reverse_injective h3.1, List.reverse_injective h3.2⟩

theorem matchSuffixAt_sound (cs ds es : List Char)
    (h : matchSuffixAt cs = some (ds, es)) :
    cs = '-' :: ds ++ 'x' :: es ∧ ds ≠ [] ∧ es ≠ [] ∧
      (∀ c ∈ ds, c.isDigit = true) ∧ (∀ c ∈ es, c.isDigit = true) := by
  match cs with
  | [] => exact absurd h (by simp [matchSuffixAt])
  | c :: rest =>
    rw [matchSuffixAt] at h
    by_cases hc : c = '-'
    · rw [if_pos hc] at h
      simp only at h
      by_cases hd0 : leadingDigits rest = []
      · rw [if_pos hd0] at h; exact absurd h (by simp)
      · rw [if_neg hd0] at h
        cases htl : rest.drop (leadingDigits rest).length with
        | nil => rw [htl] at h; exact absurd h (by simp)
        | cons x rest2 =>
          rw [htl] at h
          simp only at h
          by_cases hx : x = 'x'
          · rw [if_pos hx] at h
            by_cases he0 : leadingDigits rest2 = []
            · rw [if_pos he0] at h; exact absurd h (by simp)
            · rw [if_neg he0] at h
              by_cases hend : rest2.drop (leadingDigits rest2).length = []
              · rw [if_pos hend] at h
                have hinj : leadingDigits rest = ds ∧ leadingDigits rest2 = es := by
                  have := Option.some.inj h
                  exact ⟨congrArg Prod.fst this, congrArg Prod.snd this⟩
                obtain ⟨hds, hes⟩ := hinj
                have hrest : rest = ds ++ x :: rest2 := by
                  have hsa := leadingDigits_self_append rest
                  rw [htl, hds] at hsa
                  exact hsa
                have hrest2 : rest2 = es := by
                  have hsa := leadingDigits_self_append rest2
                  rw [hend, hes] at hsa
                  simpa using hsa
                subst hc hx
                refine ⟨?_, ?_, ?_, ?_, ?_⟩
                · rw [hrest, hrest2]; rfl
                · rw [← hds]; exact hd0
                · rw [← hes]; exact he0
                · rw [← hds]; exact mem_leadingDigits rest
                · rw [← hes]; exact mem_leadingDigits rest2
              · rw [if_neg hend] at h; exact absurd h (by simp)
          · rw [if_neg hx] at h; exact absurd h (by simp)
    · rw [if_neg hc] at h
      exact absurd h (by simp)

theorem matchSuffixAt_complete (ds es : List Char) (hds : ds ≠ []) (hes : es ≠ [])
    (hd : ∀ c ∈ ds, c.isDigit = true) (he : ∀ c ∈ es, c.isDigit = true) :
    matchSuffixAt ('-' :: ds ++ 'x' :: es) = some (ds, es) := by
  show (if ('-' : Char) = '-' then
      if leadingDigits (ds ++ 'x' :: es) = [] then none
      else
        match (ds ++ 'x' :: es).drop (leadingDigits (ds ++ 'x' :: es)).length with
        | [] => none
        | x :: rest2 =>
          if x = 'x' then
            if leadingDigits rest2 = [] then none
            else if rest2.drop (leadingDigits rest2).length = [] then
              some (leadingDigits (ds ++ 'x' :: es), leadingDigits rest2)
            else none
          else none
    else none) = some (ds, es)
  rw [if_pos rfl, leadingDigits_stop ds 'x' es hd (by decide), if_neg hds, List.drop_left]
  show (if ('x' : Char) = 'x' then
      if leadingDigits es = [] then none
      else if es.drop (leadingDigits es).length = [] then some (ds, leadingDigits es)
      else none
    else none) = some (ds, es)
  rw [if_pos rfl, leadingDigits_all es he, if_neg hes, List.drop_length, if_pos rfl]

theorem matchSuffixAt_no_early (t ds es : List Char) (ht : t ≠ [])
    (_hds : ds ≠ []) (_hes : es ≠ [])
    (hd : ∀ c ∈ ds, c.isDigit = true) (he : ∀ c ∈ es, c.isDigit = true) :
    matchSuffixAt (t ++ '-' :: ds ++ 'x' :: es) = none := by
  cases hm : matchSuffixAt (t ++ '-' :: ds ++ 'x' :: es) with
  | none => rfl
  | some p =>
    obtain ⟨ds', es'⟩ := p
    obtain ⟨heq, hds', hes', hd', he'⟩ := matchSuffixAt_sound _ _ _ hm
    have heq2 : (t ++ '-' :: ds) ++ 'x' :: es = ('-' :: ds') ++ 'x' :: es' := by
      simpa [List.append_assoc] using heq
    obtain ⟨hees, hrr⟩ := digitRun_tail_unique 'x' (by decide) es es' (t ++ '-' :: ds)
      ('-' :: ds') he he' heq2
    have hrr2 : t ++ '-' :: ds = [] ++ '-' :: ds' := by simpa using hrr
    obtain ⟨hdds, htnil⟩ := digitRun_tail_unique '-' (by decide) ds ds' t [] hd hd' hrr2
    exact absurd htnil ht

theorem findSplit_build (ds es : List Char) (hds : ds ≠ []) (hes : es ≠ [])
    (hd : ∀ c ∈ ds, c.isDigit = true) (he : ∀ c ∈ es, c.isDigit = true) :
    ∀ (t : List Char), t ≠ [] → (∀ c ∈ t, jsDot c = true) →
      ∀ (acc : List Char),
        findSplit acc (t ++ '-' :: ds ++ 'x' :: es) = some (acc ++ t, ds, es) := by
  intro t
  induction t with
  | nil => intro h; exact absurd rfl h
  | cons c t' ih =>
    intro _ hdot acc
    cases t' with
    | nil =>
      show findSplit acc (c :: ('-' :: ds ++ 'x' :: es)) = _
      rw [findSplit, if_pos (hdot c (by simp))]
      rw [matchSuffixAt_complete ds es hds hes hd he]
    | cons c2 t2 =>
      show findSplit acc (c :: ((c2 :: t2) ++ '-' :: ds ++ 'x' :: es)) = _
      rw [findSplit, if_pos (hdot c (by simp))]
      rw [matchSuffixAt_no_early (c2 :: t2) ds es (by simp) hds hes hd he]
      have hstep := ih (by simp) (fun x hx => hdot x (by simp [hx])) (acc ++ [c])
      rw [hstep]
      simp

theorem findSplit_sound : ∀ (l acc p ds es : List Char),
    findSplit acc l = some (p, ds, es) →
    ∃ t, p = acc ++ t ∧ t ≠ [] ∧ l = t ++ '-' :: ds ++ 'x' :: es ∧
      ds ≠ [] ∧ es ≠ [] ∧ (∀ c ∈ ds, c.isDigit = true) ∧ (∀ c ∈ es, c.isDigit = true) := by
  intro l
  induction l with
  | nil => intro acc p ds es h; exact absurd h (by simp [findSplit])
  | cons c cs ih =>
    intro acc p ds es h
    rw [findSplit] at h
    by_cases hdot : jsDot c
    · rw [if_pos hdot] at h
      cases hm : matchSuffixAt cs with
      | some pr =>
        obtain ⟨ds0, es0⟩ := pr
        rw [hm] at h
        simp only [Option.some.injEq, Prod.mk.injEq] at h
        obtain ⟨hp, hds0, hes0⟩ := h
        obtain ⟨hcs, hne1, hne2, hd1, hd2⟩ := matchSuffixAt_sound cs ds0 es0 hm
        subst hds0
        subst hes0
        exact ⟨[c], hp.symm, by simp, by rw [hcs]; rfl, hne1, hne2, hd1, hd2⟩
      | none =>
        rw [hm] at h
        obtain ⟨t, hp, htne, hcs, hne1, hne2, hd1, hd2⟩ := ih (acc ++ [c]) p ds es h
        exact ⟨c :: t, by simp [hp], by simp, by simp [hcs], hne1, hne2, hd1, hd2⟩
    · rw [if_neg hdot] at h
      exact absurd h (by simp)

theorem digitChar_isDigit (n : Nat) (h : n < 10) : (digitChar n).isDigit = true := by
  interval_cases n <;> decide

theorem digitChar_val (n : Nat) (h : n < 10) : (digitChar n).toNat - '0'.toNat = n := by
  interval_cases n <;> decide

theorem natToDecimalGo_spec (fuel : Nat) :
    ∀ (n : Nat) (acc : List Char), n < fuel →
    ∃ ds, natToDecimalGo fuel n acc = ds ++ acc ∧ ds ≠ [] ∧
      (∀ c ∈ ds, c.isDigit = true) ∧
      (∀ v : Nat,
        List.foldl (fun m c => m * 10 + (c.toNat - '0'.toNat)) v ds = v * 10 ^ ds.length + n) := by
  induction fuel with
  | zero => intro n acc h; omega
  | succ fuel ih =>
    intro n acc _
    by_cases h10 : n < 10
    · refine ⟨[digitChar n], ?_, by simp, ?_, ?_⟩
      · rw [natToDecimalGo, if_pos h10]
        rfl
      · intro c hc
        rw [List.mem_singleton.1 hc]
        exact digitChar_isDigit n h10
      · intro v
        simp only [List.foldl_cons, List.foldl_nil, List.length_singleton, pow_one,
          digitChar_val n h10]
    · have hdiv : n / 10 < n := Nat.div_lt_self (by omega) (by omega)
      have hfuel : n / 10 < fuel := by omega
      obtain ⟨ds', hgo, hne, hdig, hval⟩ := ih (n / 10) (digitChar (n % 10) :: acc) hfuel
      refine ⟨ds' ++ [digitChar (n % 10)], ?_, by simp, ?_, ?_⟩
      · rw [natToDecimalGo, if_neg h10, hgo]
        simp
      · intro c hc
        rcases List.mem_append.1 hc with h1 | h2
        · exact hdig c h1
        · rw [List.mem_singleton.1 h2]
          exact digitChar_isDigit (n % 10) (Nat.mod_lt n (by omega))
      · intro v
        rw [List.foldl_append, hval v]
        have hdc := digitChar_val (n % 10) (Nat.mod_lt n (by omega))
        simp only [List.foldl_cons, List.foldl_nil, List.length_append, List.length_singleton]
        rw [hdc, pow_succ]
        have hmod := Nat.div_add_mod n 10
        ring_nf
        omega

theorem natToDecimal_spec (n : Nat) :
    (natToDecimal n).data ≠ [] ∧ (∀ c ∈ (natToDecimal n).data, c.isDigit = true) ∧
      natOfDigits (natToDecimal n).data = n := by
  obtain ⟨ds, hgo, hne, hdig, hval⟩ := natToDecimalGo_spec (n + 1) n [] (by omega)
  have hd : (natToDecimal n).data = ds := by
    show (natToDecimalGo (n + 1) n []) = ds
    rw [hgo]
    simp
  rw [hd]
  refine ⟨hne, hdig, ?_⟩
  have := hval 0
  simpa [natOfDigits] using this

theorem serverName_ne_empty (n : Nat) : "Server " ++ natToDecimal n ≠ "" := by
  intro h
  have h2 := congrArg String.data h
  rw [String.data_append] at h2
  have h3 : ('S' :: "erver ".data) ++ (natToDecimal n).data = ([] : List Char) := h2
  simp at h3

theorem entryOfDiv_spec (d : OptionDiv) (s : ServerEntry) (h : entryOfDiv d = some s) :
    s.url = effectiveSrc d ∧ effectiveSrc d ≠ "" ∧ s.name ≠ "" ∧
      (trimStr d.label = "" → s.name = "Server " ++ natToDecimal s.server) := by
  unfold entryOfDiv at h
  cases hm : findOptionsNum d.id.data with
  | none => rw [hm] at h; exact absurd h (by simp)
  | some ds =>
    rw [hm] at h
    simp only at h
    by_cases hsrc : effectiveSrc d = ""
    · rw [if_pos hsrc] at h; exact absurd h (by simp)
    · rw [if_neg hsrc] at h
      have hs := (Option.some.inj h).symm
      subst hs
      refine ⟨rfl, hsrc, ?_, ?_⟩
      · show (if trimStr d.label = "" then "Server " ++ natToDecimal (natOfDigits ds)
            else trimStr d.label) ≠ ""
        split
        · exact serverName_ne_empty _
        · rename_i hne; exact hne
      · intro hl
        show (if trimStr d.label = "" then "Server " ++ natToDecimal (natOfDigits ds)
            else trimStr d.label) = _
        rw [if_pos hl]

theorem extract_servers_sorted (html : Html) :
    (extract html).servers.Pairwise serverLe :=
  List.sorted_insertionSort serverLe (html.filterMap entryOfDiv)

theorem mem_extract_servers (html : Html) (s : ServerEntry)
    (h : s ∈ (extract html).servers) : ∃ d ∈ html, entryOfDiv d = some s := by
  have h' : s ∈ List.insertionSort serverLe (html.filterMap entryOfDiv) := h
  have hmem : s ∈ html.filterMap entryOfDiv :=
    (List.perm_insertionSort serverLe (html.filterMap entryOfDiv)).mem_iff.1 h'
  exact List.mem_filterMap.1 hmem

/-! ## Claim theorems -/

/-- C8: an HTML document in which the selector finds zero option blocks
yields a normal result with an empty server list, not an error; and any
successful episode-page fetch — in particular one whose extraction yields
zero servers — is returned as a valid result with no fallback fetch
attempted (the fetch trace is exactly the episode URL). -/
theorem C8_empty_extraction_is_valid (fetch : FetchOracle) (id : String) (html : Html)
    (hf : fetch (episodePageUrl id) = .ok html) :
    extract [] = { id := "", servers := [], externalApiMapping := none } ∧
      extractFromUrl fetch id =
        (.ok { id := id, servers := (extract html).servers, externalApiMapping := none },
          [episodePageUrl id]) := by
  refine ⟨rfl, ?_⟩
  unfold extractFromUrl
  rw [hf]
  rfl

theorem C8_empty_extraction_is_valid_witness :
    extractFromUrl (fun _ => .ok []) "demo-1x1" =
      (.ok { id := "demo-1x1", servers := [], externalApiMapping := none },
        [episodePageUrl "demo-1x1"]) :=
  (C8_empty_extraction_is_valid (fun _ => .ok []) "demo-1x1" [] rfl).2

/-- C9: every extraction result's server list is sorted ascending by server
index, every entry's name is non-empty, and an option block whose trimmed
tab label is blank gets the name Server followed by its index. -/
theorem C9_servers_sorted_and_named (html : Html) :
    (extract html).servers.Pairwise serverLe ∧
      (∀ s ∈ (extract html).servers, s.name ≠ "") ∧
      (∀ d s, entryOfDiv d = some s → trimStr d.label = "" →
        s.name = "Server " ++ natToDecimal s.server) := by
  refine ⟨extract_servers_sorted html, ?_, ?_⟩
  · intro s hs
    obtain ⟨d, _, hd⟩ := mem_extract_servers html s hs
    exact (entryOfDiv_spec d s hd).2.2.1
  · intro d s hd hl
    exact (entryOfDiv_spec d s hd).2.2.2 hl

theorem C9_servers_sorted_and_named_witness :
    (ServerEntry.mk 2 "Server 2" "u2").name ≠ "" ∧
      (ServerEntry.mk 2 "Server 2" "u2").name = "Server " ++ natToDecimal 2 := by
  have h := C9_servers_sorted_and_named
    [⟨"options-2", "u2", "", " "⟩, ⟨"options-1", "u1", "", "Alpha"⟩]
  exact ⟨h.2.1 (ServerEntry.mk 2 "Server 2" "u2") (by decide),
    h.2.2 ⟨"options-2", "u2", "", " "⟩ (ServerEntry.mk 2 "Server 2" "u2") (by decide) (by decide)⟩

/-- C10: a server entry is emitted only for blocks whose id matches the
options-digits pattern and whose iframe yields a non-empty src or, failing
that, a non-empty data-src; non-matching or URL-less blocks are skipped
without error, so every url in the result is non-empty. -/
theorem C10_entry_filtering (html : Html) :
    (∀ s ∈ (extract html).servers, s.url ≠ "") ∧
      (∀ d : OptionDiv, findOptionsNum d.id.data = none → entryOfDiv d = none) ∧
      (∀ d : OptionDiv, effectiveSrc d = "" → entryOfDiv d = none) ∧
      (∀ d s, entryOfDiv d = some s → s.url = effectiveSrc d ∧ effectiveSrc d ≠ "") ∧
      (∀ d : OptionDiv, d.src ≠ "" → effectiveSrc d = d.src) ∧
      (∀ d : OptionDiv, d.src = "" → effectiveSrc d = d.dataSrc) := by
  refine ⟨?_, ?_, ?_, ?_, ?_, ?_⟩
  · intro s hs
    obtain ⟨d, _, hd⟩ := mem_extract_servers html s hs
    have hspec := entryOfDiv_spec d s hd
    rw [hspec.1]
    exact hspec.2.1
  · intro d hm
    unfold entryOfDiv
    rw [hm]
  · intro d hsrc
    unfold entryOfDiv
    cases hm : findOptionsNum d.id.data with
    | none => rfl
    | some ds => simp only [if_pos hsrc]
  · intro d s hd
    exact ⟨(entryOfDiv_spec d s hd).1, (entryOfDiv_spec d s hd).2.1⟩
  · intro d hs
    unfold effectiveSrc
    rw [if_pos hs]
  · intro d hs
    unfold effectiveSrc
    rw [if_neg (by simp [hs])]
    by_cases hd : d.dataSrc = ""
    · rw [if_neg (by simp [hd]), hd]
    · rw [if_pos hd]

theorem C10_entry_filtering_witness :
    (ServerEntry.mk 7 "Server 7" "u7").url ≠ "" ∧
      entryOfDiv ⟨"options-9", "", "", "name"⟩ = none ∧
      entryOfDiv ⟨"options-x", "u", "", ""⟩ = none := by
  have h := C10_entry_filtering [⟨"options-7", "", "u7", ""⟩]
  exact ⟨h.1 (ServerEntry.mk 7 "Server 7" "u7") (by decide),
    h.2.2.1 ⟨"options-9", "", "", "name"⟩ (by decide),
    h.2.1 ⟨"options-x", "u", "", ""⟩ (by decide)⟩

/-- C1: an episode-page fetch failure not classified as not-found is
rethrown at once; the fetch trace is exactly the episode URL, so neither the
series-page nor the movie-page fallback fetch is attempted. -/
theorem C1_non_notfound_aborts (fetch : FetchOracle) (id : String) (e : JsError)
    (hf : fetch (episodePageUrl id) = .error e) (h404 : is404 e = false) :
    extractFromUrl fetch id = (.error e, [episodePageUrl id]) := by
  unfold extractFromUrl
  rw [hf]
  simp [h404]

theorem C1_non_notfound_aborts_witness :
    is404 { message := some "connection timed out" } = false ∧
      extractFromUrl (fun _ => .error { message := some "connection timed out" }) "demo-1x2" =
        (.error { message := some "connection timed out" }, [episodePageUrl "demo-1x2"]) :=
  ⟨by decide,
    C1_non_notfound_aborts (fun _ => .error { message := some "connection timed out" })
      "demo-1x2" { message := some "connection timed out" } rfl (by decide)⟩

/-- C6: on an episode-page failure classified as not-found, the engine
derives the series slug from the episode identifier and attempts the series
page first and the movies page second, returning the first success with the
id field set to the originally requested identifier, as the fetch traces
record. -/
theorem C6_notfound_fallback_order (fetch : FetchOracle) (id : String) (e : JsError)
    (hf : fetch (episodePageUrl id) = .error e) (h404 : is404 e = true) :
    (∀ h, fetch (seriesPageUrl (getSeriesIdFromEpisodeId id)) = .ok h →
      extractFromUrl fetch id =
        (.ok { id := id, servers := (extract h).servers, externalApiMapping := none },
          [episodePageUrl id, seriesPageUrl (getSeriesIdFromEpisodeId id)])) ∧
    (∀ e1 h, fetch (seriesPageUrl (getSeriesIdFromEpisodeId id)) = .error e1 →
      fetch (moviesPageUrl (getSeriesIdFromEpisodeId id)) = .ok h →
      extractFromUrl fetch id =
        (.ok { id := id, servers := (extract h).servers, externalApiMapping := none },
          [episodePageUrl id, seriesPageUrl (getSeriesIdFromEpisodeId id),
            moviesPageUrl (getSeriesIdFromEpisodeId id)])) := by
  constructor
  · intro h hs
    unfold extractFromUrl
    rw [hf, hs]
    simp [h404]
    rfl
  · intro e1 h hs hm
    unfold extractFromUrl
    rw [hf, hs, hm]
    simp [h404]
    rfl

theorem C6_notfound_fallback_order_witness :
    is404 { status := some 404 } = true ∧
      extractFromUrl
          (fun u => if u = seriesPageUrl "demo" then .ok [⟨"options-1", "u1", "", ""⟩]
            else .error { status := some 404 }) "demo-2x3" =
        (.ok { id := "demo-2x3"
               servers := [⟨1, "Server 1", "u1"⟩]
               externalApiMapping := none },
          [episodePageUrl "demo-2x3", seriesPageUrl "demo"]) := by
  refine ⟨by decide, ?_⟩
  have h := (C6_notfound_fallback_order
    (fun u => if u = seriesPageUrl "demo" then .ok [⟨"options-1", "u1", "", ""⟩]
      else .error { status := some 404 })
    "demo-2x3" { status := some 404 } (by decide) (by decide)).1
    [⟨"options-1", "u1", "", ""⟩] (by decide)
  rw [h]
  decide

theorem extractFromUrl_ok_shape (fetch : FetchOracle) (id : String) (d : ExtractionResult)
    (h : (extractFromUrl fetch id).1 = .ok d) :
    d.id = id ∧ d.externalApiMapping = none := by
  unfold extractFromUrl at h
  cases h1 : fetch (episodePageUrl id) with
  | ok html =>
    rw [h1] at h
    simp only [Except.ok.injEq] at h
    rw [← h]
    exact ⟨rfl, rfl⟩
  | error e =>
    rw [h1] at h
    by_cases h404 : is404 e
    · simp only [h404, if_true] at h
      cases h2 : fetch (seriesPageUrl (getSeriesIdFromEpisodeId id)) with
      | ok hs =>
        rw [h2] at h
        simp only [Except.ok.injEq] at h
        rw [← h]
        exact ⟨rfl, rfl⟩
      | error e1 =>
        rw [h2] at h
        cases h3 : fetch (moviesPageUrl (getSeriesIdFromEpisodeId id)) with
        | ok hm =>
          rw [h3] at h
          simp only [Except.ok.injEq] at h
          rw [← h]
          exact ⟨rfl, rfl⟩
        | error e2 =>
          rw [h3] at h
          exact absurd h (by simp)
    · simp only [h404, if_false] at h
      exact absurd h (by simp)

/-- C3: external resolution is metadata enrichment only.  The mapping flow
always runs the direct fallback retrieval against the original episode id
(identical fetch trace); on a resolution miss it returns the direct result
unchanged, whose id is the raw episode id and whose mapping is absent; on a
resolution hit it returns the same direct result with the external match
fields attached; a direct retrieval error passes through unchanged. -/
theorem C3_mapping_is_enrichment_only (api : SearchOracle) (fetch : FetchOracle)
    (episodeId : String) :
    (getEmbedWithMapping api fetch episodeId).2 = (extractFromUrl fetch episodeId).2 ∧
      (∀ d, (extractFromUrl fetch episodeId).1 = .ok d →
        d.id = episodeId ∧ d.externalApiMapping = none) ∧
      (getAnimeIdFromExternalApi api episodeId = none →
        getEmbedWithMapping api fetch episodeId = extractFromUrl fetch episodeId) ∧
      (∀ m, getAnimeIdFromExternalApi api episodeId = some m →
        (∀ d, (extractFromUrl fetch episodeId).1 = .ok d →
          (getEmbedWithMapping api fetch episodeId).1 = .ok { d with
            id := episodeId
            externalApiMapping := some { animeId := some m.externalApiId
                                         dataId := m.dataId
                                         title := some m.originalTitle
                                         season := some m.season
                                         episode := some m.episode
                                         constructedId := none } }) ∧
        (∀ e, (extractFromUrl fetch episodeId).1 = .error e →
          (getEmbedWithMapping api fetch episodeId).1 = .error e)) := by
  refine ⟨?_, fun d hd => extractFromUrl_ok_shape fetch episodeId d hd, ?_, ?_⟩
  · unfold getEmbedWithMapping
    cases hm : getAnimeIdFromExternalApi api episodeId with
    | none => rfl
    | some m =>
      simp only
      cases hr : (extractFromUrl fetch episodeId).1 with
      | ok d => rfl
      | error e => rfl
  · intro hm
    unfold getEmbedWithMapping
    rw [hm]
  · intro m hm
    constructor
    · intro d hd
      unfold getEmbedWithMapping
      rw [hm]
      simp only
      rw [hd]
    · intro e he
      unfold getEmbedWithMapping
      rw [hm]
      simp only
      rw [he]

theorem C3_mapping_is_enrichment_only_witness :
    getEmbedWithMapping (fun _ => .error { message := some "fail" })
        (fun _ => .ok [⟨"options-1", "u1", "", ""⟩]) "demo-1x2" =
      extractFromUrl (fun _ => .ok [⟨"options-1", "u1", "", ""⟩]) "demo-1x2" :=
  (C3_mapping_is_enrichment_only (fun _ => .error { message := some "fail" })
    (fun _ => .ok [⟨"options-1", "u1", "", ""⟩]) "demo-1x2").2.2.1 (by decide)

/-- C4: failures inside the external-metadata resolution layer are swallowed
into a null result and never surface as errors: the title search returns the
first element of a non-empty array and null on a null, empty or thrown
response; in the numeric-id flow, a listing request that fails (including
losing the timeout race, which the extractor observes as a thrown timeout
error) resolves no title, and the retrieval then behaves exactly as with an
unresolved title, continuing with the fallback candidates. -/
theorem C4_resolution_failures_swallowed (e : JsError) (fetch : FetchOracle)
    (dataId : String) (season episode : Nat) :
    searchAnimeInExternalApi (.error e) = none ∧
      searchAnimeInExternalApi (.ok none) = none ∧
      (∀ l : List AnimeRecord, searchAnimeInExternalApi (.ok (some l)) = l.head?) ∧
      resolveAnimeTitle (.error e) dataId = none ∧
      getEmbedByDataIdAndEpisode fetch (.error e) dataId season episode =
        getEmbedByDataIdAndEpisode fetch (.ok none) dataId season episode := by
  refine ⟨rfl, rfl, ?_, rfl, rfl⟩
  intro l
  cases l with
  | nil => rfl
  | cons a as => simp [searchAnimeInExternalApi]

theorem C4_resolution_failures_swallowed_witness :
    searchAnimeInExternalApi (.ok (some [⟨some "naruto-1", some "1", some "Naruto"⟩])) =
      some (AnimeRecord.mk (some "naruto-1") (some "1") (some "Naruto")) :=
  (C4_resolution_failures_swallowed { message := some "API timeout" }
    (fun _ => .error {}) "1" 1 1).2.2.1
    [⟨some "naruto-1", some "1", some "Naruto"⟩]

theorem mem_collapseWsAux : ∀ (b : Bool) (l : List Char) (c : Char),
    c ∈ collapseWsAux b l → c = '-' ∨ (c ∈ l ∧ isWs c = false) := by
  intro b l
  induction l generalizing b with
  | nil => intro c hc; exact absurd hc (by simp [collapseWsAux])
  | cons a as ih =>
    intro c hc
    rw [collapseWsAux] at hc
    by_cases hw : isWs a
    · rw [if_pos hw] at hc
      cases b with
      | true =>
        rw [if_pos rfl] at hc
        rcases ih true c hc with h1 | ⟨h2, h3⟩
        · exact Or.inl h1
        · exact Or.inr ⟨List.mem_cons_of_mem a h2, h3⟩
      | false =>
        rw [if_neg (by simp)] at hc
        rcases List.mem_cons.1 hc with h1 | h2
        · exact Or.inl h1
        · rcases ih true c h2 with h1 | ⟨h3, h4⟩
          · exact Or.inl h1
          · exact Or.inr ⟨List.mem_cons_of_mem a h3, h4⟩
    · rw [if_neg hw] at hc
      rcases List.mem_cons.1 hc with h1 | h2
      · subst h1
        exact Or.inr ⟨List.mem_cons_self c as, by simpa using hw⟩
      · rcases ih false c h2 with h1 | ⟨h3, h4⟩
        · exact Or.inl h1
        · exact Or.inr ⟨List.mem_cons_of_mem a h3, h4⟩

/-- C7 counterexample: the claim says the slug normalization removes every
character outside lowercase letters, digits and hyphens, but the word class
of the deletion regex keeps underscores: normalizing a title containing an
underscore leaves the underscore in the slug. -/
theorem C7_counterexample :
    normalizeTitleFull "Spy_Family" = "spy_family" ∧
      '_' ∈ (normalizeTitleFull "Spy_Family").data ∧
      ¬('_'.isLower = true ∨ '_'.isDigit = true ∨ '_' = '-') := by
  refine ⟨by decide, by decide, by decide⟩

/-- C7 amended: the episode-flow normalization lowercases, collapses each
whitespace run to one hyphen, and removes every character outside word
characters and hyphens, so its output contains only lowercase letters,
digits, hyphens and underscores; the data-id-flow normalization only
lowercases and collapses whitespace (its output merely contains no
whitespace). -/
theorem C7_amended_slug_charset (t : String) :
    (∀ c ∈ (normalizeTitleFull t).data,
      c.isLower = true ∨ c.isDigit = true ∨ c = '-' ∨ c = '_') ∧
      (∀ c ∈ (normalizeTitleBasic t).data, isWs c = false) := by
  constructor
  · intro c hc
    have hc' : c ∈ (collapseWsAux false (lowerStr t).data).filter
        (fun c => isWordChar c || c == '-') := hc
    have hmem := List.mem_filter.1 hc'
    have hnup : c.isUpper = false := by
      rcases mem_collapseWsAux false _ c hmem.1 with h1 | ⟨h2, _⟩
      · rw [h1]; decide
      · have h2' : c ∈ t.data.map Char.toLower := h2
        obtain ⟨c0, _, hc0⟩ := List.mem_map.1 h2'
        rw [← hc0]
        exact toLower_isUpper_false c0
    have hcond := hmem.2
    simp only [isWordChar, Char.isAlphanum, Char.isAlpha, hnup, Bool.false_or,
      Bool.or_eq_true, beq_iff_eq] at hcond
    rcases hcond with ((hl | hd) | hus) | hh
    · exact Or.inl hl
    · exact Or.inr (Or.inl hd)
    · exact Or.inr (Or.inr (Or.inr hus))
    · exact Or.inr (Or.inr (Or.inl hh))
  · intro c hc
    rcases mem_collapseWsAux false _ c hc with h1 | ⟨_, h3⟩
    · rw [h1]; decide
    · exact h3

theorem C7_amended_slug_charset_witness :
    ('-'.isLower = true ∨ '-'.isDigit = true ∨ '-' = '-' ∨ '-' = '_') ∧
      isWs 'a' = false := by
  have h := C7_amended_slug_charset "A b"
  exact ⟨h.1 '-' (by decide), h.2 'a' (by decide)⟩

theorem tryUrls_all_fail (fetch : FetchOracle) (mk : Html → ExtractionResult)
    (fail : JsError) : ∀ us : List String, (∀ u ∈ us, ∃ er, fetch u = .error er) →
    tryUrls fetch mk fail us = (.error fail, us) := by
  intro us
  induction us with
  | nil => intro _; rfl
  | cons u us ih =>
    intro h
    obtain ⟨er, her⟩ := h u (List.mem_cons_self u us)
    rw [tryUrls, her, ih (fun v hv => h v (List.mem_cons_of_mem u hv))]

/-- C2 counterexample: with an unresolved title, the engine builds a
composite episode identifier and attempts an episode page only for the
FIRST popular candidate; here the episode page of the second candidate
(one-piece) would succeed, yet the whole operation fails and that URL is
never fetched, refuting the claim that each candidate gets an episode-page
retry. -/
theorem C2_counterexample :
    ((getEmbedByDataIdAndEpisode
        (fun u => if u = episodePageUrl "one-piece-1x1" then .ok [⟨"options-1", "u1", "", ""⟩]
          else .error { status := some 404 })
        (.error { message := some "API timeout" }) "21" 1 1).1 =
      .error (noPageError "21")) ∧
      episodePageUrl "one-piece-1x1" ∉
        (getEmbedByDataIdAndEpisode
          (fun u => if u = episodePageUrl "one-piece-1x1" then .ok [⟨"options-1", "u1", "", ""⟩]
            else .error { status := some 404 })
          (.error { message := some "API timeout" }) "21" 1 1).2 := by
  refine ⟨by decide, by decide⟩

/-- C2 amended: when title resolution fails the engine uses the fixed
ordered popular-title slug list as candidates, but builds a composite
episode identifier from the FIRST candidate only and attempts its episode
page once; the fallback then walks every candidate's series page and movies
page in order, and when every fetch fails the operation fails with the
no-page error only after that whole sequence has been attempted, as the
fetch trace records. -/
theorem C2_amended_first_candidate_composite (fetch : FetchOracle) (listing : ApiResult)
    (dataId : String) (season episode : Nat)
    (hres : resolveAnimeTitle listing dataId = none)
    (hfail : ∀ u, ∃ er, fetch u = .error er) :
    getEmbedByDataIdAndEpisode fetch listing dataId season episode =
      (.error (noPageError dataId),
        episodePageUrl (buildComposite (popularPatterns.headD "") season episode) ::
          popularPatterns.flatMap (fun s => [seriesPageUrl s, moviesPageUrl s])) := by
  obtain ⟨er, her⟩ :=
    hfail (episodePageUrl (buildComposite (popularPatterns.headD "") season episode))
  unfold getEmbedByDataIdAndEpisode
  rw [hres]
  simp only
  rw [her, tryUrls_all_fail _ _ _ _ (fun v _ => hfail v)]

theorem C2_amended_first_candidate_composite_witness :
    resolveAnimeTitle (.error { message := some "API timeout" }) "21" = none ∧
      getEmbedByDataIdAndEpisode (fun _ => .error { status := some 404 })
          (.error { message := some "API timeout" }) "21" 1 1 =
        (.error (noPageError "21"),
          episodePageUrl (buildComposite (popularPatterns.headD "") 1 1) ::
            popularPatterns.flatMap (fun s => [seriesPageUrl s, moviesPageUrl s])) :=
  ⟨rfl, C2_amended_first_candidate_composite (fun _ => .error { status := some 404 })
    (.error { message := some "API timeout" }) "21" 1 1 rfl
    (fun _ => ⟨{ status := some 404 }, rfl⟩)⟩

/-- C5: parsing a composite identifier built from a slug and positive
season and episode numerals without leading zeros (exactly the canonical
decimal numerals of positive numbers) succeeds with those fields, and
reformatting the parsed fields with the composite template reproduces the
original string exactly; conversely any successful parse exhibits a
hyphen-digits-x-digits suffix, so a string without such a suffix yields
null, not an error. -/
theorem C5_parse_roundtrip (slug : String) (s e : Nat)
    (hne : slug.data ≠ []) (hdot : ∀ c ∈ slug.data, jsDot c = true)
    (_hs : 0 < s) (_he : 0 < e) :
    parseEpisodeId (buildComposite slug s e) =
        some { animeTitle := slug, season := s, episode := e } ∧
      (∀ parts, parseEpisodeId (buildComposite slug s e) = some parts →
        buildComposite parts.animeTitle parts.season parts.episode = buildComposite slug s e) ∧
      (∀ id parts, parseEpisodeId id = some parts →
        ∃ dsS dsE, id.data = parts.animeTitle.data ++ '-' :: dsS ++ 'x' :: dsE ∧
          dsS ≠ [] ∧ dsE ≠ [] ∧
          (∀ c ∈ dsS, c.isDigit = true) ∧ (∀ c ∈ dsE, c.isDigit = true) ∧
          parts.season = natOfDigits dsS ∧ parts.episode = natOfDigits dsE) := by
  obtain ⟨hsne, hsdig, hsval⟩ := natToDecimal_spec s
  obtain ⟨hene, hedig, heval⟩ := natToDecimal_spec e
  have hdata : (buildComposite slug s e).data =
      slug.data ++ '-' :: (natToDecimal s).data ++ 'x' :: (natToDecimal e).data := by
    show (slug ++ "-" ++ natToDecimal s ++ "x" ++ natToDecimal e).data = _
    rw [String.data_append, String.data_append, String.data_append, String.data_append]
    have hm : ("-" : String).data = ['-'] := rfl
    have hx : ("x" : String).data = ['x'] := rfl
    rw [hm, hx]
    simp
  have hmain : parseEpisodeId (buildComposite slug s e) =
      some { animeTitle := slug, season := s, episode := e } := by
    unfold parseEpisodeId
    rw [hdata]
    rw [findSplit_build (natToDecimal s).data (natToDecimal e).data hsne hene hsdig hedig
      slug.data hne hdot []]
    simp only [List.nil_append, Option.some.injEq]
    have hmk : String.mk slug.data = slug := rfl
    rw [hmk, hsval, heval]
  refine ⟨hmain, ?_, ?_⟩
  · intro parts hp
    rw [hmain] at hp
    have := Option.some.inj hp
    rw [← this]
  · intro id parts hp
    unfold parseEpisodeId at hp
    cases hf : findSplit [] id.data with
    | none => rw [hf] at hp; exact absurd hp (by simp)
    | some triple =>
      obtain ⟨t, ds, es⟩ := triple
      rw [hf] at hp
      simp only [Option.some.injEq] at hp
      obtain ⟨t2, hpt, htne, hid, hne1, hne2, hd1, hd2⟩ := findSplit_sound id.data [] t ds es hf
      refine ⟨ds, es, ?_, hne1, hne2, hd1, hd2, ?_, ?_⟩
      · rw [hid, ← hp]
        show t2 ++ '-' :: ds ++ 'x' :: es = t ++ '-' :: ds ++ 'x' :: es
        rw [hpt]
        simp
      · rw [← hp]
      · rw [← hp]

theorem C5_parse_roundtrip_witness :
    parseEpisodeId (buildComposite "spy-x-family" 3 1) =
      some { animeTitle := "spy-x-family", season := 3, episode := 1 } :=
  (C5_parse_roundtrip "spy-x-family" 3 1 (by decide) (by decide) (by decide) (by decide)).1

end AnimeWorld
